import Mathlib

/-!
# Verification of the nerd-gui dictation core

Shallow embedding of the core of the `nerd-gui` voice-dictation program:

* `src/backends/whisper/keyboard_output.py` — diff-based incremental
  text correction (`KeyboardOutput._type_text_with_correction`);
* `src/backends/whisper/audio_capture.py` — energy-based voice-activity
  segmentation (`VoiceActivityDetector._process_energy_frame`) and the
  capture loop's minimum-length filter (`AudioCapture._capture_loop`);
* `src/backends/whisper/keyword_detector.py` — the wake-word / command
  state machine (`KeywordDetector`);
* `src/backends/whisper/command_registry.py` — the command registry and
  its three-stage matching (`CommandRegistry.find_matching_command`);
* `src/backends/whisper/transcriber.py` and
  `src/backends/whisper_backend.py` — the transcription worker loop and
  the backend error handling.

Python strings are embedded as `List Char` (the source text is ASCII in
all the places the properties touch; `Char.toLower` therefore coincides
with Python's `str.lower`).  Wall-clock times, audio samples and
confidences are embedded as `ℚ`.
-/

/-! ## String helpers (Python `str` operations on `List Char`) -/

/-- Python `str.lower()` (ASCII range). -/
def lower (s : List Char) : List Char := s.map Char.toLower

/-- Python `str.strip()`: drop leading and trailing whitespace. -/
def strip (s : List Char) : List Char :=
  (((s.dropWhile Char.isWhitespace).reverse).dropWhile Char.isWhitespace).reverse

/-- Python `not text.strip()`: the string is empty or all whitespace. -/
def strip_is_empty (s : List Char) : Bool := s.all Char.isWhitespace

/-- Helper for `words`: accumulate the current word (reversed) while
scanning left to right, exactly like Python `str.split()` with no
separator argument (runs of whitespace separate words, no empties). -/
def words_aux : List Char → List Char → List (List Char)
  | [], cur => if cur.isEmpty then [] else [cur.reverse]
  | c :: rest, cur =>
    if c.isWhitespace then
      if cur.isEmpty then words_aux rest [] else cur.reverse :: words_aux rest []
    else
      words_aux rest (c :: cur)

/-- Python `text.split()`. -/
def words (s : List Char) : List (List Char) := words_aux s []

/-- Python `' '.join(ws)`. -/
def join_space : List (List Char) → List Char
  | [] => []
  | [w] => w
  | w :: ws => w ++ ' ' :: join_space ws

/-- Python `string.punctuation` (the characters with codes 39, 92, 96,
123 and 125 are apostrophe, backslash, backtick and braces). -/
def python_punctuation : List Char :=
  ['!', '"', '#', '$', '%', '&', Char.ofNat 39, '(', ')', '*', '+', ',', '-', '.', '/',
   ':', ';', '<', '=', '>', '?', '@', '[', Char.ofNat 92, ']', '^', '_', Char.ofNat 96,
   Char.ofNat 123, '|', Char.ofNat 125, '~']

/-! ## Keyboard output (`keyboard_output.py`)

`KeyboardOutput._type_text_with_correction` compares the queued text with
`previous_text`, deletes the stale suffix with BackSpace keys and types
the changed portion.  The emitted key operations are modelled as a list
of `KeyOp`. -/

/-- One observable keyboard operation: a BackSpace key press, or one
`xdotool type` invocation with the given text. -/
inductive KeyOp where
  | backspace : KeyOp
  | typeStr : List Char → KeyOp
deriving DecidableEq

/-- `KeyboardOutput._type_text_immediate`: skips text that is empty or
whitespace-only (`if not text.strip(): return`), otherwise performs one
type operation with the full text. -/
def type_text_immediate (text : List Char) : List KeyOp :=
  if strip_is_empty text then [] else [KeyOp.typeStr text]

/-- `KeyboardOutput._delete_characters`: `count` BackSpace key presses
(none when `count <= 0`). -/
def delete_characters (count : Nat) : List KeyOp :=
  List.replicate count KeyOp.backspace

/-- The `match_index` computation of `_type_text_with_correction`: the
loop scans `range(min_len)` and stops at the first differing character,
else sets `min_len`; this is the length of the longest common prefix. -/
def match_index : List Char → List Char → Nat
  | a :: as, b :: bs => if a = b then match_index as bs + 1 else 0
  | _, _ => 0

/-- `KeyboardOutput._type_text_with_correction(text, enable_correction)`:
returns the emitted key operations and the new `previous_text`.  Blank
text returns immediately; with correction enabled and a nonempty
`previous_text` it deletes `len(previous_text) - match_index` characters
and types `text[match_index:]` through `_type_text_immediate`; otherwise
it types the whole text.  In every non-blank case `previous_text`
becomes `text`. -/
def type_text_with_correction (previous_text text : List Char) (enable_correction : Bool) :
    List KeyOp × List Char :=
  if strip_is_empty text then ([], previous_text)
  else if enable_correction && !previous_text.isEmpty then
    let i := match_index text previous_text
    let chars_to_delete := previous_text.length - i
    let new_text := text.drop i
    ((if 0 < chars_to_delete then delete_characters chars_to_delete else []) ++
      (if new_text.isEmpty then [] else type_text_immediate new_text), text)
  else
    (type_text_immediate text, text)

/-! ## Voice-activity segmentation (`audio_capture.py`)

`VoiceActivityDetector` keeps `is_speaking`, `silence_counter` and
`audio_buffer`; `_process_energy_frame` classifies a frame by RMS energy
and finalizes an utterance after `silence_frames` consecutive silence
frames.  `AudioCapture._capture_loop` forwards a finalized chunk to
`on_audio_chunk` only when it is nonempty and at least
`min_samples = int(min_audio_length * sample_rate)` samples long. -/

/-- State of `VoiceActivityDetector` (energy mode). -/
structure VadState where
  is_speaking : Bool
  silence_counter : Nat
  audio_buffer : List ℚ
deriving DecidableEq

/-- The initial VAD state set in `VoiceActivityDetector.__init__`. -/
def init_vad : VadState := ⟨false, 0, []⟩

/-- `np.mean(audio_frame ** 2)` over rational samples (0 for an empty
frame; real frames are fixed-size and nonempty). -/
def frame_mean_sq (f : List ℚ) : ℚ := (f.map (fun x => x * x)).sum / (f.length : ℚ)

/-- The source classifies a frame as speech when
`sqrt(mean(frame**2)) > energy_threshold`; for the nonnegative
thresholds the program uses this is equivalent to the squared
comparison below, which stays inside `ℚ`. -/
def is_speech_frame (energy_threshold : ℚ) (f : List ℚ) : Bool :=
  decide (energy_threshold ^ 2 < frame_mean_sq f)

/-- `VoiceActivityDetector._process_energy_frame`: appends the frame to
the buffer unconditionally, resets the silence counter on speech, counts
silence while speaking, and on the `silence_frames`-th consecutive
silence frame finalizes: clears the buffer and returns it as the
completed chunk.  Returns (new state, speech flag, optional chunk). -/
def process_energy_frame (silence_frames : Nat) (energy_threshold : ℚ)
    (s : VadState) (frame : List ℚ) : VadState × Bool × Option (List ℚ) :=
  let buffer := s.audio_buffer ++ frame
  if is_speech_frame energy_threshold frame then
    (⟨true, 0, buffer⟩, true, none)
  else if s.is_speaking then
    if silence_frames ≤ s.silence_counter + 1 then
      (⟨false, 0, []⟩, false, some buffer)
    else
      (⟨true, s.silence_counter + 1, buffer⟩, false, none)
  else
    (⟨false, s.silence_counter, buffer⟩, false, none)

/-- One iteration of `AudioCapture._capture_loop` body: run the VAD on
the frame and emit the finalized chunk only when it is nonempty and at
least `min_samples` long (`len(audio_chunk) > 0` and
`len(audio_chunk) >= min_samples`). -/
def capture_step (min_samples silence_frames : Nat) (energy_threshold : ℚ)
    (s : VadState) (frame : List ℚ) : VadState × Option (List ℚ) :=
  let r := process_energy_frame silence_frames energy_threshold s frame
  match r.2.2 with
  | some chunk =>
    (r.1, if 0 < chunk.length ∧ min_samples ≤ chunk.length then some chunk else none)
  | none => (r.1, none)

/-- The capture loop over a finite frame sequence: per-frame emissions
(`some chunk` where `on_audio_chunk` fires, `none` elsewhere) together
with the final VAD state. -/
def capture_run (min_samples silence_frames : Nat) (energy_threshold : ℚ) :
    VadState → List (List ℚ) → VadState × List (Option (List ℚ))
  | s, [] => (s, [])
  | s, f :: fs =>
    let p := capture_step min_samples silence_frames energy_threshold s f
    let q := capture_run min_samples silence_frames energy_threshold p.1 fs
    (q.1, p.2 :: q.2)

/-! ## Transcription worker and backend error state
(`transcriber.py`, `whisper_backend.py`)

`TranscriptionWorker._worker_loop` pulls queued utterances, calls the
transcriber, forwards a result through `on_result` and reports a falsy
result through `on_error`; the loop itself continues either way.
`WhisperBackend._on_error` sets the backend status to `ERROR` (keeping
the first message), `start` refuses to run while the status is `ERROR`,
and only `reset_error_state` returns it to `STOPPED`. -/

/-- `BackendStatus` of `base_backend.py`. -/
inductive BackendStatus where
  | STOPPED
  | STARTING
  | RUNNING
  | STOPPING
  | ERROR
deriving DecidableEq

/-- The status/error-message pair managed by `BaseBackend._set_status`. -/
structure WhisperBackendState where
  status : BackendStatus
  error_message : Option (List Char)
deriving DecidableEq

/-- `WhisperBackend._on_error`: move to `ERROR` unless already there. -/
def backend_on_error (b : WhisperBackendState) (msg : List Char) : WhisperBackendState :=
  if b.status = BackendStatus.ERROR then b else ⟨BackendStatus.ERROR, some msg⟩

/-- Backend state plus the utterance texts delivered through
`on_result` so far. -/
structure WorkerPipeline where
  backend : WhisperBackendState
  results : List (List Char)
deriving DecidableEq

/-- One iteration of `TranscriptionWorker._worker_loop`: transcribe the
queued audio; on a result invoke `on_result`, on a falsy result invoke
`on_error("Transcription failed")` (wired to `WhisperBackend._on_error`).
The loop does not stop in either case. -/
def worker_step (transcribe : List ℚ → Option (List Char))
    (s : WorkerPipeline) (audio : List ℚ) : WorkerPipeline :=
  match transcribe audio with
  | some r => { s with results := s.results ++ [r] }
  | none => { s with backend := backend_on_error s.backend ("Transcription failed".data) }

/-- The worker loop over a finite queue of utterances. -/
def worker_run (transcribe : List ℚ → Option (List Char)) :
    WorkerPipeline → List (List ℚ) → WorkerPipeline
  | s, [] => s
  | s, a :: as => worker_run transcribe (worker_step transcribe s a) as

/-- `WhisperBackend.start` begins with
`if self.status == BackendStatus.ERROR: return False`. -/
def start_allowed (b : WhisperBackendState) : Bool :=
  !(b.status = BackendStatus.ERROR : Bool)

/-- `WhisperBackend.reset_error_state`: from `ERROR` back to `STOPPED`
with the message cleared, returning whether a reset happened. -/
def reset_error_state (b : WhisperBackendState) : WhisperBackendState × Bool :=
  if b.status = BackendStatus.ERROR then (⟨BackendStatus.STOPPED, none⟩, true) else (b, false)

/-! ## Command registry (`command_registry.py`) -/

/-- The `CommandAction` dataclass. -/
structure CommandAction where
  keys : List String
  description : String
  category : String
  enabled : Bool := true
  custom : Bool := false
deriving DecidableEq

/-- The registry's `commands` dict, as an insertion-ordered association
list with unique lowercase keys (Python dicts preserve insertion order,
which the partial-matching stage iterates in). -/
abbrev Registry : Type := List (List Char × CommandAction)

/-- Python `dict.get` / `in` on an insertion-ordered association list. -/
def dict_get {α : Type} : List (List Char × α) → List Char → Option α
  | [], _ => none
  | (k, v) :: rest, key => if k = key then some v else dict_get rest key

/-- `CommandRegistry.get_command`: lookup under the lowercased name. -/
def get_command (reg : Registry) (name : List Char) : Option CommandAction :=
  dict_get reg (lower name)

/-- The built-in commands of `_register_builtin_commands`, in
registration (= dict iteration) order: basic, navigation, system,
function-key and media groups. -/
def builtin_commands : Registry :=
  [("enter".data, ⟨["Return"], "Press Enter key", "Basic", true, false⟩),
   ("space".data, ⟨["space"], "Press Space key", "Basic", true, false⟩),
   ("backspace".data, ⟨["BackSpace"], "Press Backspace key", "Basic", true, false⟩),
   ("delete".data, ⟨["Delete"], "Press Delete key", "Basic", true, false⟩),
   ("escape".data, ⟨["Escape"], "Press Escape key", "Basic", true, false⟩),
   ("tab".data, ⟨["Tab"], "Press Tab key", "Basic", true, false⟩),
   ("home".data, ⟨["Home"], "Press Home key", "Basic", true, false⟩),
   ("end".data, ⟨["End"], "Press End key", "Basic", true, false⟩),
   ("pageup".data, ⟨["Prior"], "Press Page Up key", "Basic", true, false⟩),
   ("pagedown".data, ⟨["Next"], "Press Page Down key", "Basic", true, false⟩),
   ("print".data, ⟨["Print"], "Press Print Screen key", "Basic", true, false⟩),
   ("up".data, ⟨["Up"], "Press Up arrow key", "Navigation", true, false⟩),
   ("down".data, ⟨["Down"], "Press Down arrow key", "Navigation", true, false⟩),
   ("left".data, ⟨["Left"], "Press Left arrow key", "Navigation", true, false⟩),
   ("right".data, ⟨["Right"], "Press Right arrow key", "Navigation", true, false⟩),
   ("copy".data, ⟨["Control_L", "c"], "Copy (Ctrl+C)", "System", true, false⟩),
   ("paste".data, ⟨["Control_L", "v"], "Paste (Ctrl+V)", "System", true, false⟩),
   ("cut".data, ⟨["Control_L", "x"], "Cut (Ctrl+X)", "System", true, false⟩),
   ("save".data, ⟨["Control_L", "s"], "Save (Ctrl+S)", "System", true, false⟩),
   ("selectall".data, ⟨["Control_L", "a"], "Select All (Ctrl+A)", "System", true, false⟩),
   ("undo".data, ⟨["Control_L", "z"], "Undo (Ctrl+Z)", "System", true, false⟩),
   ("redo".data, ⟨["Control_L", "y"], "Redo (Ctrl+Y)", "System", true, false⟩),
   ("find".data, ⟨["Control_L", "f"], "Find (Ctrl+F)", "System", true, false⟩),
   ("close".data, ⟨["Alt_L", "F4"], "Close window (Alt+F4)", "System", true, false⟩),
   ("minimize".data, ⟨["Alt_L", "F9"], "Minimize window (Alt+F9)", "System", true, false⟩),
   ("maximize".data, ⟨["Alt_L", "F10"], "Maximize window (Alt+F10)", "System", true, false⟩),
   ("f1".data, ⟨["F1"], "Press F1 key", "Function", true, false⟩),
   ("f2".data, ⟨["F2"], "Press F2 key", "Function", true, false⟩),
   ("f3".data, ⟨["F3"], "Press F3 key", "Function", true, false⟩),
   ("f4".data, ⟨["F4"], "Press F4 key", "Function", true, false⟩),
   ("f5".data, ⟨["F5"], "Press F5 key", "Function", true, false⟩),
   ("f6".data, ⟨["F6"], "Press F6 key", "Function", true, false⟩),
   ("f7".data, ⟨["F7"], "Press F7 key", "Function", true, false⟩),
   ("f8".data, ⟨["F8"], "Press F8 key", "Function", true, false⟩),
   ("f9".data, ⟨["F9"], "Press F9 key", "Function", true, false⟩),
   ("f10".data, ⟨["F10"], "Press F10 key", "Function", true, false⟩),
   ("f11".data, ⟨["F11"], "Press F11 key", "Function", true, false⟩),
   ("f12".data, ⟨["F12"], "Press F12 key", "Function", true, false⟩),
   ("playpause".data, ⟨["XF86AudioPlay"], "Play/Pause media", "Media", true, false⟩),
   ("next".data, ⟨["XF86AudioNext"], "Next track", "Media", true, false⟩),
   ("previous".data, ⟨["XF86AudioPrev"], "Previous track", "Media", true, false⟩),
   ("mute".data, ⟨["XF86AudioMute"], "Mute audio", "Media", true, false⟩),
   ("volumedown".data, ⟨["XF86AudioLowerVolume"], "Volume down", "Media", true, false⟩),
   ("volumeup".data, ⟨["XF86AudioRaiseVolume"], "Volume up", "Media", true, false⟩)]

/-- The fixed `variations` synonym table of `find_matching_command`,
in source order. -/
def variations : List (List Char × List Char) :=
  [("return".data, "enter".data),
   ("returnkey".data, "enter".data),
   ("spacebar".data, "space".data),
   ("space key".data, "space".data),
   ("backspace key".data, "backspace".data),
   ("delete key".data, "delete".data),
   ("escape key".data, "escape".data),
   ("tab key".data, "tab".data),
   ("up arrow".data, "up".data),
   ("down arrow".data, "down".data),
   ("left arrow".data, "left".data),
   ("right arrow".data, "right".data),
   ("page up".data, "pageup".data),
   ("page down".data, "pagedown".data),
   ("ctrl c".data, "copy".data),
   ("ctrl v".data, "paste".data),
   ("ctrl x".data, "cut".data),
   ("ctrl s".data, "save".data),
   ("ctrl a".data, "selectall".data),
   ("control c".data, "copy".data),
   ("control v".data, "paste".data),
   ("control x".data, "cut".data),
   ("control s".data, "save".data),
   ("control a".data, "selectall".data),
   ("alt f4".data, "close".data),
   ("alt f9".data, "minimize".data),
   ("alt f10".data, "maximize".data)]

/-- The partial-matching test of `find_matching_command`:
`cmd_name.startswith(spoken_lower) or spoken_lower.startswith(cmd_name)`. -/
def name_overlap (spoken_lower cmd_name : List Char) : Bool :=
  spoken_lower.isPrefixOf cmd_name || cmd_name.isPrefixOf spoken_lower

/-- `CommandRegistry.find_matching_command`: direct dict hit on the
lowercased, stripped input; else the synonym table (falling through when
the synonym's target is not registered); else the first command in
registry iteration order related to the input by `name_overlap`. -/
def find_matching_command (reg : Registry) (spoken_command : List Char) :
    Option CommandAction :=
  let spoken_lower := strip (lower spoken_command)
  match dict_get reg spoken_lower with
  | some c => some c
  | none =>
    match (match dict_get variations spoken_lower with
           | some matched => dict_get reg matched
           | none => none) with
    | some c => some c
    | none => (reg.find? (fun p => name_overlap spoken_lower p.1)).map (fun p => p.2)

/-! ## Keyword / command detector (`keyword_detector.py`) -/

/-- `DetectionMode`. -/
inductive DetectionMode where
  | NORMAL
  | COMMAND_ACTIVE
deriving DecidableEq

/-- The `DetectionResult` dataclass. -/
structure DetectionResult where
  detected_keyword : Bool
  command_candidate : Option (List Char) := none
  remaining_text : Option (List Char) := none
  confidence : ℚ := 0
  mode : DetectionMode := DetectionMode.NORMAL
deriving DecidableEq

/-- The mutable fields of `KeywordDetector` (the compiled regex is a
function of `keyword` and needs no separate field). -/
structure KeywordDetector where
  keyword : List Char
  timeout_seconds : ℚ
  sensitivity : List Char
  max_command_words : Nat
  current_mode : DetectionMode
  keyword_detected_time : Option ℚ
  last_text : List Char
deriving DecidableEq

/-- `KeywordDetector.__init__`: lowercases and strips the keyword,
clamps `max_command_words` to 1–5, starts in `NORMAL` with no
timestamp. -/
def init_detector (keyword : List Char) (timeout_seconds : ℚ)
    (sensitivity : List Char) (max_command_words : Nat) : KeywordDetector :=
  ⟨strip (lower keyword), timeout_seconds, sensitivity,
   max 1 (min 5 max_command_words), DetectionMode.NORMAL, none, []⟩

/-- `\w` for the ASCII texts involved: letters, digits or underscore. -/
def is_word_char (c : Char) : Bool := c.isAlphanum || c = '_'

/-- A whole-word occurrence of `kw` at position `i` of `text`: the exact
characters of `kw`, with a `\b` boundary on each side.  This models the
compiled pattern `r'\b' + re.escape(keyword) + r'\b'` for keywords that
begin and end with word characters (every wake word does). -/
def match_at (text kw : List Char) (i : Nat) : Bool :=
  decide ((text.drop i).take kw.length = kw) &&
  (decide (i = 0) || !is_word_char (text.getD (i - 1) ' ')) &&
  (decide (text.length ≤ i + kw.length) || !is_word_char (text.getD (i + kw.length) ' '))

/-- `KeywordDetector._detect_keyword`: `findall` returns a nonempty list
exactly when the pattern matches somewhere. -/
def detect_keyword (text kw : List Char) : Bool :=
  (List.range (text.length + 1)).any (match_at text kw)

/-- `self.keyword_regex.search(text)` followed by `.end()`: the end
position of the leftmost whole-word occurrence. -/
def keyword_search_end (text kw : List Char) : Option Nat :=
  ((List.range (text.length + 1)).find? (match_at text kw)).map (fun i => i + kw.length)

/-- `KeywordDetector._strip_punctuation_and_whitespace`: strip
characters of `string.punctuation` and whitespace from both ends. -/
def strip_punct_ws (s : List Char) : List Char :=
  let p := fun c => python_punctuation.contains c || c.isWhitespace
  (((s.dropWhile p).reverse).dropWhile p).reverse

/-- The `filler_words` set of `_extract_multiword_command`. -/
def filler_words : List (List Char) :=
  ["um".data, "uh".data, "eh".data, "the".data, "a".data, "an".data]

/-- The token list the cascade runs on: `text.split()` with leading
filler words removed (`while words and words[0].lower() in filler_words:
words.pop(0)`). -/
def command_tokens (text : List Char) : List (List Char) :=
  (words text).dropWhile (fun w => filler_words.contains (lower w))

/-- The `for num_words in range(max_words, 0, -1)` loop of
`_extract_multiword_command`: join the first `num_words` tokens, look
the candidate up, return the first (longest) hit together with the
joined remaining tokens (`None` when nothing remains). -/
def cascade_lookup (reg : Registry) (ws : List (List Char)) :
    Nat → Option (List Char × Option (List Char))
  | 0 => none
  | num_words + 1 =>
    let command_candidate := lower (join_space (ws.take (num_words + 1)))
    match get_command reg command_candidate with
    | some _ =>
      some (command_candidate,
        if (ws.drop (num_words + 1)).isEmpty then none
        else some (join_space (ws.drop (num_words + 1))))
    | none => cascade_lookup reg ws num_words

/-- `KeywordDetector._extract_multiword_command` (with a registry
present, as in every configuration the claims concern): empty text or an
empty (or all-filler) token list yields nothing, otherwise the cascading
lookup starting at `min(max_command_words, len(words))`. -/
def extract_multiword_command (reg : Registry) (max_command_words : Nat)
    (text : List Char) : Option (List Char × Option (List Char)) :=
  if text.isEmpty then none
  else if (words text).isEmpty then none
  else if (command_tokens text).isEmpty then none
  else cascade_lookup reg (command_tokens text)
         (min max_command_words (command_tokens text).length)

/-- `KeywordDetector._calculate_confidence`. -/
def calculate_confidence (sensitivity text : List Char) : ℚ :=
  let sensitivity_multiplier : ℚ :=
    if sensitivity = "low".data then 9 / 10
    else if sensitivity = "normal".data then 1
    else if sensitivity = "high".data then 11 / 10
    else 1
  let clarity_bonus : ℚ := if (words text).length = 1 then 1 / 10 else 0
  min 1 (4 / 5 * sensitivity_multiplier + clarity_bonus)

/-- `KeywordDetector._reset_to_normal`. -/
def reset_to_normal (d : KeywordDetector) : KeywordDetector :=
  { d with current_mode := DetectionMode.NORMAL, keyword_detected_time := none }

/-- `KeywordDetector._process_command`: log, reset to normal, and report
the detected command with the remaining text. -/
def process_command (d : KeywordDetector) (command : List Char)
    (remaining_text : Option (List Char)) : DetectionResult × KeywordDetector :=
  (⟨true, some command, remaining_text,
    calculate_confidence d.sensitivity command, DetectionMode.NORMAL⟩,
   reset_to_normal d)

/-- `KeywordDetector.process_text(text)` at wall-clock time `now`,
returning the `DetectionResult` and the updated detector.  The timeout
check reads the activation timestamp with a default of 0; by the
invariant `detector_mode_timestamp_invariant` the timestamp is present
whenever the mode is `COMMAND_ACTIVE`, so the default is never
observed on reachable states. -/
def process_text (reg : Registry) (d : KeywordDetector) (text : List Char)
    (now : ℚ) : DetectionResult × KeywordDetector :=
  let text_clean := strip (lower text)
  if d.current_mode = DetectionMode.COMMAND_ACTIVE ∧
      d.timeout_seconds < now - (d.keyword_detected_time.getD 0) then
    (⟨false, none, none, 0, DetectionMode.NORMAL⟩, reset_to_normal d)
  else if d.current_mode = DetectionMode.NORMAL then
    if detect_keyword text_clean d.keyword then
      let d1 := { d with current_mode := DetectionMode.COMMAND_ACTIVE,
                         keyword_detected_time := some now }
      let extracted :=
        match keyword_search_end text_clean d.keyword with
        | some e =>
          extract_multiword_command reg d.max_command_words
            (strip_punct_ws (text_clean.drop e))
        | none => none
      match extracted with
      | some (cmd, rem) => process_command d1 cmd rem
      | none =>
        (⟨true, none, none, calculate_confidence d.sensitivity text_clean,
          DetectionMode.COMMAND_ACTIVE⟩, d1)
    else
      (⟨false, none, none, 0, d.current_mode⟩, d)
  else
    match extract_multiword_command reg d.max_command_words text_clean with
    | some (cmd, rem) => process_command d cmd rem
    | none => (⟨false, none, none, 0, d.current_mode⟩, d)

/-- `KeywordDetector.reset`. -/
def reset_detector (d : KeywordDetector) : KeywordDetector :=
  { reset_to_normal d with last_text := [] }

/-- `KeywordDetector.update_keyword`: store the lowercased, stripped
keyword, recompile the pattern and reset. -/
def update_keyword (d : KeywordDetector) (keyword : List Char) : KeywordDetector :=
  reset_detector { d with keyword := strip (lower keyword) }

/-- `KeywordDetector.update_timeout`: clamp to 1–10 seconds. -/
def update_timeout (d : KeywordDetector) (timeout_seconds : ℚ) : KeywordDetector :=
  { d with timeout_seconds := max 1 (min 10 timeout_seconds) }

/-- The `current_mode`/`keyword_detected_time` coupling claimed by C9. -/
def detector_inv (d : KeywordDetector) : Prop :=
  d.current_mode = DetectionMode.COMMAND_ACTIVE ↔ d.keyword_detected_time ≠ none

/-! ## Shared helper lemmas -/

theorem match_index_nil_right (t : List Char) : match_index t [] = 0 := by
  cases t <;> rfl

theorem delete_characters_ite (n : Nat) :
    (if 0 < n then delete_characters n else []) = delete_characters n := by
  cases n <;> simp [delete_characters]

theorem strip_is_empty_nil : strip_is_empty [] = true := rfl

/-! ## C10: blank queued text is a no-op -/

/-- C10.  For every queued text that is empty or consists only of
whitespace, `_type_text_with_correction` emits no delete-key or type
operations and leaves `previous_text` unchanged, whether or not
correction is enabled for the call. -/
theorem blank_text_noop (previous_text text : List Char) (enable_correction : Bool)
    (h : strip_is_empty text = true) :
    type_text_with_correction previous_text text enable_correction = ([], previous_text) := by
  simp [type_text_with_correction, h]

/-- Witness for `blank_text_noop` at `previous_text = "hello"`,
`text = "  "`, correction enabled. -/
theorem blank_text_noop_witness :
    type_text_with_correction ("hello".data) ("  ".data) true = ([], "hello".data) :=
  blank_text_noop ("hello".data) ("  ".data) true (by decide)

/-! ## C1: diff-based correction -/

/-- Counterexample to C1 as stated: with `previous_text = "hello"` and
`text = "hello "` the common prefix has length 5, so the claim demands
zero deletions followed by typing `text[5:] = " "`; the code instead
emits no operation at all, because `_type_text_immediate` skips
whitespace-only text. -/
theorem correction_whitespace_suffix_cex :
    (type_text_with_correction ("hello".data) ("hello ".data) true).1 = [] ∧
    type_text_with_correction ("hello".data) ("hello ".data) true ≠
      (delete_characters
          (("hello".data).length - match_index ("hello ".data) ("hello".data)) ++
        [KeyOp.typeStr (("hello ".data).drop (match_index ("hello ".data) ("hello".data)))],
       "hello ".data) := by
  decide

/-- C1 (amended).  For every previous text `p` and new text `t` on the
correction-enabled path, with `i` the longest-common-prefix length:
when `t` is blank the call is a no-op (see C10); otherwise exactly
`len(p) - i` delete-key operations are emitted, followed by one type
operation with `t[i:]` — unless `t[i:]` is empty or whitespace-only, in
which case nothing is typed — and `previous_text` is updated to `t`.
In particular previous `"hello world"`, new `"hello there"` deletes 5
characters and types `"there"`, and previous `""` with new `"abc"`
deletes 0 and types `"abc"`. -/
theorem correction_diff_amended :
    (∀ previous_text text : List Char,
      type_text_with_correction previous_text text true =
        if strip_is_empty text then ([], previous_text)
        else
          (delete_characters (previous_text.length - match_index text previous_text) ++
            (if strip_is_empty (text.drop (match_index text previous_text)) then []
             else [KeyOp.typeStr (text.drop (match_index text previous_text))]),
           text)) ∧
    type_text_with_correction ("hello world".data) ("hello there".data) true =
      (delete_characters 5 ++ [KeyOp.typeStr ("there".data)], "hello there".data) ∧
    type_text_with_correction ([] : List Char) ("abc".data) true =
      ([KeyOp.typeStr ("abc".data)], "abc".data) := by
  refine ⟨?_, by decide, by decide⟩
  intro p t
  by_cases ht : strip_is_empty t
  · simp [type_text_with_correction, ht]
  · rw [if_neg ht]
    have inner : (if (t.drop (match_index t p)).isEmpty then []
          else type_text_immediate (t.drop (match_index t p))) =
        (if strip_is_empty (t.drop (match_index t p)) then []
          else [KeyOp.typeStr (t.drop (match_index t p))]) := by
      by_cases hnew : (t.drop (match_index t p)).isEmpty
      · have h0 : t.drop (match_index t p) = [] := List.isEmpty_iff.mp hnew
        rw [if_pos hnew, h0]
        simp [strip_is_empty]
      · rw [if_neg hnew, type_text_immediate]
    by_cases hp : p.isEmpty
    · have hpnil : p = [] := List.isEmpty_iff.mp hp
      subst hpnil
      simp [type_text_with_correction, ht, type_text_immediate, match_index_nil_right,
        delete_characters]
    · have key : type_text_with_correction p t true =
          (delete_characters (p.length - match_index t p) ++
            (if (t.drop (match_index t p)).isEmpty then []
              else type_text_immediate (t.drop (match_index t p))), t) := by
        simp [type_text_with_correction, ht, hp, delete_characters_ite]
        intro h
        simp [Nat.sub_eq_zero_of_le h, delete_characters]
      rw [key, inner]

/-! ## C7: transcription failure handling -/

theorem backend_on_error_status (b : WhisperBackendState) (msg : List Char) :
    (backend_on_error b msg).status = BackendStatus.ERROR := by
  unfold backend_on_error
  split
  · assumption
  · rfl

theorem worker_run_results (transcribe : List ℚ → Option (List Char)) :
    ∀ (queued : List (List ℚ)) (s : WorkerPipeline),
      (worker_run transcribe s queued).results = s.results ++ queued.filterMap transcribe := by
  intro queued
  induction queued with
  | nil => intro s; simp [worker_run]
  | cons a as ih =>
    intro s
    rw [worker_run, ih]
    unfold worker_step
    cases h : transcribe a <;> simp [h, List.filterMap_cons]

theorem worker_run_error_stays (transcribe : List ℚ → Option (List Char)) :
    ∀ (queued : List (List ℚ)) (s : WorkerPipeline),
      s.backend.status = BackendStatus.ERROR →
      (worker_run transcribe s queued).backend.status = BackendStatus.ERROR := by
  intro queued
  induction queued with
  | nil => intro s h; exact h
  | cons a as ih =>
    intro s h
    rw [worker_run]
    apply ih
    unfold worker_step
    cases ht : transcribe a
    · simpa using backend_on_error_status s.backend _
    · simpa using h

/-- The concrete transcriber used on C7's failing input: it fails on the
one-sample utterance `[1]` and succeeds elsewhere. -/
def failing_transcriber : List ℚ → Option (List Char) :=
  fun a => if a = [1] then none else some ("ok".data)

/-- Counterexample to C7 as stated: after one failing transcription the
worker loop does keep running (the later utterance `[2]` still produces
its result), but the backend is now in `ERROR` — a state in which
`start` returns `False` until `reset_error_state` is called — so a
single transcription failure does put the pipeline into a terminal
error state that must be explicitly reset. -/
theorem transcription_failure_error_state_cex :
    (worker_run failing_transcriber ⟨⟨BackendStatus.RUNNING, none⟩, []⟩ [[1], [2]]).results =
        ["ok".data] ∧
    (worker_run failing_transcriber ⟨⟨BackendStatus.RUNNING, none⟩, []⟩ [[1], [2]]).backend.status =
        BackendStatus.ERROR ∧
    start_allowed
        (worker_run failing_transcriber ⟨⟨BackendStatus.RUNNING, none⟩, []⟩ [[1], [2]]).backend =
      false := by
  decide

/-- C7 (amended).  A failed transcription is dropped and the worker loop
continues: the delivered results are exactly the successful
transcriptions, in order.  However, each failure reports through
`on_error`, so any failure leaves the backend status `ERROR`; while in
`ERROR`, `start` is refused and only an explicit `reset_error_state`
returns the backend to `STOPPED`. -/
theorem transcription_failure_recovery_amended
    (transcribe : List ℚ → Option (List Char)) (s : WorkerPipeline)
    (queued : List (List ℚ)) :
    (worker_run transcribe s queued).results = s.results ++ queued.filterMap transcribe ∧
    (∀ a ∈ queued, transcribe a = none →
      (worker_run transcribe s queued).backend.status = BackendStatus.ERROR) ∧
    (∀ b : WhisperBackendState, b.status = BackendStatus.ERROR →
      start_allowed b = false ∧ (reset_error_state b).1.status = BackendStatus.STOPPED) := by
  refine ⟨worker_run_results transcribe queued s, ?_, ?_⟩
  · intro a ha hfail
    obtain ⟨pre, post, rfl⟩ := List.append_of_mem ha
    induction pre generalizing s with
    | nil =>
      rw [List.nil_append, worker_run]
      apply worker_run_error_stays
      unfold worker_step
      rw [hfail]
      simpa using backend_on_error_status s.backend _
    | cons x xs ih =>
      rw [List.cons_append, worker_run]
      exact ih (worker_step transcribe s x) (by simp)
  · intro b hb
    constructor
    · simp [start_allowed, hb]
    · simp [reset_error_state, hb]

/-- Witness for `transcription_failure_recovery_amended`: the failing
input `[1]` leaves the backend in `ERROR`. -/
theorem transcription_failure_recovery_witness :
    (worker_run failing_transcriber ⟨⟨BackendStatus.RUNNING, none⟩, []⟩ [[1]]).backend.status =
      BackendStatus.ERROR :=
  (transcription_failure_recovery_amended failing_transcriber
      ⟨⟨BackendStatus.RUNNING, none⟩, []⟩ [[1]]).2.1 [1] (by decide) (by decide)

/-! ## C5: lazy timeout reset -/

/-- C5.  Whenever `process_text` runs while the detector is in
`COMMAND_ACTIVE` and more than `timeout_seconds` have elapsed since the
activation timestamp, the detector resets to `NORMAL` and the call
returns the no-detection result without scanning that call's text for
the wake word or a command (the result is the same for every text); in
particular the detector never stays in `COMMAND_ACTIVE` past the first
`process_text` call made after the timeout has elapsed. -/
theorem command_timeout_reset (reg : Registry) (d : KeywordDetector)
    (text : List Char) (now : ℚ)
    (hmode : d.current_mode = DetectionMode.COMMAND_ACTIVE)
    (helapsed : d.timeout_seconds < now - d.keyword_detected_time.getD 0) :
    process_text reg d text now =
      (⟨false, none, none, 0, DetectionMode.NORMAL⟩, reset_to_normal d) ∧
    (process_text reg d text now).2.current_mode = DetectionMode.NORMAL := by
  have h : process_text reg d text now =
      (⟨false, none, none, 0, DetectionMode.NORMAL⟩, reset_to_normal d) := by
    unfold process_text
    rw [if_pos ⟨hmode, helapsed⟩]
  exact ⟨h, by rw [h]; rfl⟩

/-- A detector seconds past a wake-word activation: keyword `"tony"`,
3-second timeout, activated at time 0. -/
def d_command_active : KeywordDetector :=
  ⟨"tony".data, 3, "normal".data, 1, DetectionMode.COMMAND_ACTIVE, some 0, []⟩

/-- Witness for `command_timeout_reset` at 3.1 s elapsed: even though
the text contains the wake word and a registered command, the timed-out
call returns no detection and resets to `NORMAL`. -/
theorem command_timeout_reset_witness :
    process_text builtin_commands d_command_active ("tony enter".data) (31 / 10) =
      (⟨false, none, none, 0, DetectionMode.NORMAL⟩, reset_to_normal d_command_active) :=
  (command_timeout_reset builtin_commands d_command_active ("tony enter".data) (31 / 10)
      rfl (by norm_num [d_command_active])).1

/-! ## C6: boundary-aware wake-word matching -/

/-- C6.  In `NORMAL` mode the wake word is recognized only as a
boundary-aware, case-insensitive whole word, at any position: with wake
word `"tony"`, text containing `"tonight"` but not the standalone word
`"tony"` yields no detection; `"call tony later"` triggers detection
(entering `COMMAND_ACTIVE`); `"tony enter"` yields
`detected_keyword = true` with `command_candidate = "enter"` resolved
against the built-in registry. -/
theorem wake_word_whole_word :
    (process_text builtin_commands (init_detector ("tony".data) 3 ("normal".data) 1)
        ("see you tonight".data) 0).1.detected_keyword = false ∧
    (process_text builtin_commands (init_detector ("tony".data) 3 ("normal".data) 1)
        ("see you tonight".data) 0).2.current_mode = DetectionMode.NORMAL ∧
    (process_text builtin_commands (init_detector ("tony".data) 3 ("normal".data) 1)
        ("call tony later".data) 0).1.detected_keyword = true ∧
    (process_text builtin_commands (init_detector ("tony".data) 3 ("normal".data) 1)
        ("call tony later".data) 0).2.current_mode = DetectionMode.COMMAND_ACTIVE ∧
    (process_text builtin_commands (init_detector ("tony".data) 3 ("normal".data) 1)
        ("tony enter".data) 0).1.detected_keyword = true ∧
    (process_text builtin_commands (init_detector ("tony".data) 3 ("normal".data) 1)
        ("tony enter".data) 0).1.command_candidate = some ("enter".data) := by
  decide

/-! ## C9: mode/timestamp invariant -/

/-- C9.  `current_mode = COMMAND_ACTIVE` iff `keyword_detected_time` is
present, established by construction and preserved by `process_text`,
`reset`, `update_keyword` and `update_timeout`; consequently the lazy
timeout comparison inside `process_text` only ever reads a present
timestamp on reachable detectors. -/
theorem detector_mode_timestamp_invariant :
    (∀ (kw : List Char) (t : ℚ) (sens : List Char) (mw : Nat),
      detector_inv (init_detector kw t sens mw)) ∧
    (∀ (reg : Registry) (d : KeywordDetector) (text : List Char) (now : ℚ),
      detector_inv d → detector_inv (process_text reg d text now).2) ∧
    (∀ d : KeywordDetector, detector_inv d → detector_inv (reset_detector d)) ∧
    (∀ (d : KeywordDetector) (kw : List Char),
      detector_inv d → detector_inv (update_keyword d kw)) ∧
    (∀ (d : KeywordDetector) (t : ℚ),
      detector_inv d → detector_inv (update_timeout d t)) := by
  refine ⟨?_, ?_, ?_, ?_, ?_⟩
  · intro kw t sens mw
    simp [detector_inv, init_detector]
  · intro reg d text now h
    unfold process_text
    dsimp only
    split
    · simp [detector_inv, reset_to_normal]
    · split
      · split
        · split
          · simp [detector_inv, process_command, reset_to_normal]
          · simp [detector_inv]
        · exact h
      · split
        · simp [detector_inv, process_command, reset_to_normal]
        · exact h
  · intro d h
    simp [detector_inv, reset_detector, reset_to_normal]
  · intro d kw h
    simp [detector_inv, update_keyword, reset_detector, reset_to_normal]
  · intro d t h
    simpa [detector_inv, update_timeout] using h

/-- Witness for `detector_mode_timestamp_invariant`: the invariant holds
after a wake-word activation from the freshly constructed detector. -/
theorem detector_mode_timestamp_invariant_witness :
    detector_inv (process_text builtin_commands
      (init_detector ("tony".data) 3 ("normal".data) 1) ("tony".data) 0).2 :=
  detector_mode_timestamp_invariant.2.1 builtin_commands
    (init_detector ("tony".data) 3 ("normal".data) 1) ("tony".data) 0
    (by simp [detector_inv, init_detector])

/-! ## C8: three-stage command matching -/

theorem list_find_first {α : Type} (p : α → Bool) :
    ∀ (pre : List α) (x : α) (post : List α), p x = true → (∀ q ∈ pre, p q = false) →
      List.find? p (pre ++ x :: post) = some x := by
  intro pre
  induction pre with
  | nil => intro x post hx _; simp [List.find?, hx]
  | cons a l ih =>
    intro x post hx hpre
    have ha : p a = false := hpre a (by simp)
    rw [List.cons_append, List.find?]
    rw [ha]
    exact ih x post hx (fun q hq => hpre q (by simp [hq]))

theorem list_find_none {α : Type} (p : α → Bool) :
    ∀ l : List α, (∀ q ∈ l, p q = false) → List.find? p l = none := by
  intro l
  induction l with
  | nil => intro _; rfl
  | cons a l ih =>
    intro h
    rw [List.find?, h a (by simp)]
    exact ih (fun q hq => h q (by simp [hq]))

/-- C8.  `find_matching_command` resolves a spoken string by, in order:
exact case-insensitive (lowercased, stripped) name lookup; the fixed
synonym table (including `"spacebar"→"space"` and `"ctrl c"→"copy"`),
taken only when its target is registered; then prefix matching in
registry iteration order, the first command whose name is a prefix of
the spoken text or vice versa winning; `none` when all three stages
miss. -/
theorem find_matching_command_stages :
    (∀ (reg : Registry) (spoken : List Char) (c : CommandAction),
      dict_get reg (strip (lower spoken)) = some c →
      find_matching_command reg spoken = some c) ∧
    (∀ (reg : Registry) (spoken matched : List Char) (c : CommandAction),
      dict_get reg (strip (lower spoken)) = none →
      dict_get variations (strip (lower spoken)) = some matched →
      dict_get reg matched = some c →
      find_matching_command reg spoken = some c) ∧
    (∀ (reg : Registry) (spoken : List Char)
       (pre post : List (List Char × CommandAction)) (name : List Char) (c : CommandAction),
      dict_get reg (strip (lower spoken)) = none →
      (match dict_get variations (strip (lower spoken)) with
       | some matched => dict_get reg matched
       | none => none) = (none : Option CommandAction) →
      reg = pre ++ (name, c) :: post →
      name_overlap (strip (lower spoken)) name = true →
      (∀ q ∈ pre, name_overlap (strip (lower spoken)) q.1 = false) →
      find_matching_command reg spoken = some c) ∧
    (∀ (reg : Registry) (spoken : List Char),
      dict_get reg (strip (lower spoken)) = none →
      (match dict_get variations (strip (lower spoken)) with
       | some matched => dict_get reg matched
       | none => none) = (none : Option CommandAction) →
      (∀ q ∈ reg, name_overlap (strip (lower spoken)) q.1 = false) →
      find_matching_command reg spoken = none) ∧
    find_matching_command builtin_commands ("spacebar".data) =
      some ⟨["space"], "Press Space key", "Basic", true, false⟩ ∧
    find_matching_command builtin_commands ("ctrl c".data) =
      some ⟨["Control_L", "c"], "Copy (Ctrl+C)", "System", true, false⟩ := by
  refine ⟨?_, ?_, ?_, ?_, by decide, by decide⟩
  · intro reg spoken c h
    simp [find_matching_command, h]
  · intro reg spoken matched c h1 h2 h3
    simp [find_matching_command, h1, h2, h3]
  · intro reg spoken pre post name c h1 h2 hreg hname hpre
    simp only [find_matching_command, h1, h2]
    subst hreg
    rw [list_find_first (fun p => name_overlap (strip (lower spoken)) p.1)
      pre (name, c) post hname (fun q hq => hpre q hq)]
    rfl
  · intro reg spoken h1 h2 hall
    simp only [find_matching_command, h1, h2]
    rw [list_find_none (fun p => name_overlap (strip (lower spoken)) p.1) reg
      (fun q hq => hall q hq)]
    rfl

/-- Witness for `find_matching_command_stages`: the exact-match stage
resolves `"enter"` to the built-in Enter command. -/
theorem find_matching_command_stages_witness :
    find_matching_command builtin_commands ("enter".data) =
      some ⟨["Return"], "Press Enter key", "Basic", true, false⟩ :=
  find_matching_command_stages.1 builtin_commands ("enter".data)
    ⟨["Return"], "Press Enter key", "Basic", true, false⟩ (by decide)

/-! ## C4: cascading multi-word command extraction -/

theorem cascade_lookup_some (reg : Registry) (ws : List (List Char)) :
    ∀ (n : Nat) (cmd : List Char) (rem : Option (List Char)),
      cascade_lookup reg ws n = some (cmd, rem) →
      ∃ k, 1 ≤ k ∧ k ≤ n ∧
        cmd = lower (join_space (ws.take k)) ∧
        (get_command reg cmd).isSome = true ∧
        rem = (if (ws.drop k).isEmpty then none else some (join_space (ws.drop k))) ∧
        ∀ j, k < j → j ≤ n → get_command reg (lower (join_space (ws.take j))) = none := by
  intro n
  induction n with
  | zero => intro cmd rem h; simp [cascade_lookup] at h
  | succ m ih =>
    intro cmd rem h
    rw [cascade_lookup] at h
    cases hg : get_command reg (lower (join_space (ws.take (m + 1)))) with
    | some a =>
      simp only [hg, Option.some.injEq, Prod.mk.injEq] at h
      obtain ⟨hc, hr⟩ := h
      subst hc
      refine ⟨m + 1, by omega, le_refl _, rfl, ?_, hr.symm, ?_⟩
      · rw [hg]; rfl
      · intro j hj1 hj2; omega
    | none =>
      simp only [hg] at h
      obtain ⟨k, hk1, hk2, hc, hs, hr, hnone⟩ := ih cmd rem h
      refine ⟨k, hk1, by omega, hc, hs, hr, ?_⟩
      intro j hj1 hj2
      by_cases hje : j = m + 1
      · subst hje; exact hg
      · exact hnone j hj1 (by omega)

theorem cascade_lookup_none (reg : Registry) (ws : List (List Char)) :
    ∀ n : Nat, cascade_lookup reg ws n = none →
      ∀ j, 1 ≤ j → j ≤ n → get_command reg (lower (join_space (ws.take j))) = none := by
  intro n
  induction n with
  | zero => intro _ j h1 h2; omega
  | succ m ih =>
    intro h j h1 h2
    rw [cascade_lookup] at h
    cases hg : get_command reg (lower (join_space (ws.take (m + 1)))) with
    | some a => simp [hg] at h
    | none =>
      simp only [hg] at h
      by_cases hje : j = m + 1
      · subst hje; exact hg
      · exact ih h j h1 (by omega)

/-- The P6 registry: only `"select all"` (2 words) and `"enter"`
(1 word) are defined. -/
def p6_registry : Registry :=
  [("select all".data, ⟨["Control_L", "a"], "Select all text", "Test", true, false⟩),
   ("enter".data, ⟨["Return"], "Press Enter key", "Test", true, false⟩)]

/-- C4.  After stripping leading filler words, candidates made of the
first `k` tokens are looked up for `k = min(max_command_words, token
count)` down to 1 and the first (longest) exact registry hit wins,
returning that command with `remaining_text` the joined tokens after the
first `k` (completeness: a `none` result means no candidate length hits).
When the detector consumes a command this way it resets to `NORMAL`.
With `max_command_words = 2` and a registry holding only `"select all"`
and `"enter"`, tokens `select all now` resolve to `"select all"` with
remainder `"now"`, while `select nonsense` yields no command. -/
theorem cascading_command_extraction :
    (∀ (reg : Registry) (N : Nat) (text cmd : List Char) (rem : Option (List Char)),
      extract_multiword_command reg N text = some (cmd, rem) →
      ∃ k, 1 ≤ k ∧ k ≤ min N (command_tokens text).length ∧
        cmd = lower (join_space ((command_tokens text).take k)) ∧
        (get_command reg cmd).isSome = true ∧
        rem = (if ((command_tokens text).drop k).isEmpty then none
               else some (join_space ((command_tokens text).drop k))) ∧
        ∀ j, k < j → j ≤ min N (command_tokens text).length →
          get_command reg (lower (join_space ((command_tokens text).take j))) = none) ∧
    (∀ (reg : Registry) (N : Nat) (text : List Char),
      extract_multiword_command reg N text = none →
      ∀ j, 1 ≤ j → j ≤ min N (command_tokens text).length →
        get_command reg (lower (join_space ((command_tokens text).take j))) = none) ∧
    (∀ (reg : Registry) (d : KeywordDetector) (text : List Char) (now : ℚ)
       (cmd : List Char) (rem : Option (List Char)),
      d.current_mode = DetectionMode.COMMAND_ACTIVE →
      ¬ d.timeout_seconds < now - d.keyword_detected_time.getD 0 →
      extract_multiword_command reg d.max_command_words (strip (lower text)) = some (cmd, rem) →
      process_text reg d text now =
        (⟨true, some cmd, rem, calculate_confidence d.sensitivity cmd, DetectionMode.NORMAL⟩,
         reset_to_normal d)) ∧
    extract_multiword_command p6_registry 2 ("select all now".data) =
      some ("select all".data, some ("now".data)) ∧
    extract_multiword_command p6_registry 2 ("select nonsense".data) = none := by
  refine ⟨?_, ?_, ?_, by decide, by decide⟩
  · intro reg N text cmd rem h
    unfold extract_multiword_command at h
    split_ifs at h with h1 h2 h3
    exact cascade_lookup_some reg (command_tokens text) _ cmd rem h
  · intro reg N text h j hj1 hj2
    unfold extract_multiword_command at h
    split_ifs at h with h1 h2 h3
    · have ht : command_tokens text = [] := by
        rw [command_tokens, List.isEmpty_iff.mp h1]; rfl
      rw [ht] at hj2; simp at hj2; omega
    · have ht : command_tokens text = [] := by
        rw [command_tokens, List.isEmpty_iff.mp h2]; rfl
      rw [ht] at hj2; simp at hj2; omega
    · rw [List.isEmpty_iff.mp h3] at hj2; simp at hj2; omega
    · exact cascade_lookup_none reg (command_tokens text) _ h j hj1 hj2
  · intro reg d text now cmd rem hmode hnt hex
    unfold process_text
    dsimp only
    rw [if_neg (by rintro ⟨_, hc⟩; exact hnt hc)]
    rw [if_neg (by simp [hmode])]
    rw [hex]
    rfl

/-- Witness for `cascading_command_extraction`: on the P6 registry a
detector already in `COMMAND_ACTIVE` resolves `"select all now"` to the
command `"select all"` with remainder `"now"` and resets to `NORMAL`. -/
theorem cascading_command_extraction_witness :
    process_text p6_registry
        ⟨"tony".data, 3, "normal".data, 2, DetectionMode.COMMAND_ACTIVE, some 0, []⟩
        ("select all now".data) 1 =
      (⟨true, some ("select all".data), some ("now".data),
        calculate_confidence ("normal".data) ("select all".data), DetectionMode.NORMAL⟩,
       reset_to_normal
        ⟨"tony".data, 3, "normal".data, 2, DetectionMode.COMMAND_ACTIVE, some 0, []⟩) :=
  cascading_command_extraction.2.2.1 p6_registry
    ⟨"tony".data, 3, "normal".data, 2, DetectionMode.COMMAND_ACTIVE, some 0, []⟩
    ("select all now".data) 1 ("select all".data) (some ("now".data))
    rfl (by norm_num) (by decide)

/-! ## C2/C3: segmentation runs -/

theorem capture_run_append (m sf : Nat) (th : ℚ) (as bs : List (List ℚ)) :
    ∀ s : VadState,
      capture_run m sf th s (as ++ bs) =
        ((capture_run m sf th (capture_run m sf th s as).1 bs).1,
         (capture_run m sf th s as).2 ++ (capture_run m sf th (capture_run m sf th s as).1 bs).2) := by
  induction as with
  | nil => intro s; simp [capture_run]
  | cons f fs ih =>
    intro s
    simp only [List.cons_append, capture_run]
    rw [show fs.append bs = fs ++ bs from rfl, ih]

theorem capture_step_speech (m sf : Nat) (th : ℚ) (s : VadState) (f : List ℚ)
    (h : is_speech_frame th f = true) :
    capture_step m sf th s f = (⟨true, 0, s.audio_buffer ++ f⟩, none) := by
  simp [capture_step, process_energy_frame, h]

theorem capture_step_silence_count (m sf : Nat) (th : ℚ) (c : Nat) (buf : List ℚ)
    (f : List ℚ) (h : is_speech_frame th f = false) (hc : ¬ sf ≤ c + 1) :
    capture_step m sf th ⟨true, c, buf⟩ f = (⟨true, c + 1, buf ++ f⟩, none) := by
  simp [capture_step, process_energy_frame, h, hc]

theorem capture_step_finalize (m sf : Nat) (th : ℚ) (c : Nat) (buf : List ℚ)
    (f : List ℚ) (h : is_speech_frame th f = false) (hc : sf ≤ c + 1) :
    capture_step m sf th ⟨true, c, buf⟩ f =
      (⟨false, 0, []⟩,
       if 0 < (buf ++ f).length ∧ m ≤ (buf ++ f).length then some (buf ++ f) else none) := by
  simp [capture_step, process_energy_frame, h, hc]

theorem capture_step_idle (m sf : Nat) (th : ℚ) (c : Nat) (buf : List ℚ)
    (f : List ℚ) (h : is_speech_frame th f = false) :
    capture_step m sf th ⟨false, c, buf⟩ f = (⟨false, c, buf ++ f⟩, none) := by
  simp [capture_step, process_energy_frame, h]

theorem capture_run_speech (m sf : Nat) (th : ℚ) :
    ∀ (fs : List (List ℚ)) (s : VadState), fs ≠ [] →
      (∀ f ∈ fs, is_speech_frame th f = true) →
      capture_run m sf th s fs =
        (⟨true, 0, s.audio_buffer ++ fs.join⟩,
         List.replicate fs.length (none : Option (List ℚ))) := by
  intro fs
  induction fs with
  | nil => intro s h; exact absurd rfl h
  | cons f fs ih =>
    intro s _ hall
    have hf : is_speech_frame th f = true := hall f (by simp)
    by_cases hfs : fs = []
    · subst hfs
      simp [capture_run, capture_step_speech m sf th s f hf]
    · rw [capture_run]
      rw [capture_step_speech m sf th s f hf]
      rw [ih ⟨true, 0, s.audio_buffer ++ f⟩ hfs (fun g hg => hall g (by simp [hg]))]
      simp [List.replicate_succ]

theorem capture_run_silence_count (m sf : Nat) (th : ℚ) :
    ∀ (fs : List (List ℚ)) (c : Nat) (buf : List ℚ),
      (∀ f ∈ fs, is_speech_frame th f = false) → c + fs.length < sf →
      capture_run m sf th ⟨true, c, buf⟩ fs =
        (⟨true, c + fs.length, buf ++ fs.join⟩,
         List.replicate fs.length (none : Option (List ℚ))) := by
  intro fs
  induction fs with
  | nil => intro c buf _ _; simp [capture_run]
  | cons f fs ih =>
    intro c buf hall hlen
    have hf : is_speech_frame th f = false := hall f (by simp)
    rw [capture_run]
    rw [capture_step_silence_count m sf th c buf f hf (by simp at hlen; omega)]
    rw [ih (c + 1) (buf ++ f) (fun g hg => hall g (by simp [hg])) (by simp at hlen ⊢; omega)]
    simp [List.replicate_succ, List.append_assoc]
    omega

theorem capture_run_idle (m sf : Nat) (th : ℚ) :
    ∀ (fs : List (List ℚ)) (c : Nat) (buf : List ℚ),
      (∀ f ∈ fs, is_speech_frame th f = false) →
      capture_run m sf th ⟨false, c, buf⟩ fs =
        (⟨false, c, buf ++ fs.join⟩,
         List.replicate fs.length (none : Option (List ℚ))) := by
  intro fs
  induction fs with
  | nil => intro c buf _; simp [capture_run]
  | cons f fs ih =>
    intro c buf hall
    have hf : is_speech_frame th f = false := hall f (by simp)
    rw [capture_run]
    rw [capture_step_idle m sf th c buf f hf]
    rw [ih c (buf ++ f) (fun g hg => hall g (by simp [hg]))]
    simp [List.replicate_succ, List.append_assoc]

theorem capture_run_episode (m sf : Nat) (th : ℚ) (s : VadState)
    (speech pre : List (List ℚ)) (g : List ℚ) (l2 : List (List ℚ))
    (hsp : ∀ f ∈ speech, is_speech_frame th f = true)
    (hpre : ∀ f ∈ pre, is_speech_frame th f = false)
    (hg : is_speech_frame th g = false)
    (hl2 : ∀ f ∈ l2, is_speech_frame th f = false)
    (hne : speech ≠ [])
    (hplen : pre.length + 1 = sf) :
    capture_run m sf th s (speech ++ (pre ++ g :: l2)) =
      (⟨false, 0, l2.join⟩,
       List.replicate speech.length (none : Option (List ℚ)) ++
         List.replicate pre.length (none : Option (List ℚ)) ++
         (if 0 < (s.audio_buffer ++ speech.join ++ pre.join ++ g).length ∧
             m ≤ (s.audio_buffer ++ speech.join ++ pre.join ++ g).length
          then some (s.audio_buffer ++ speech.join ++ pre.join ++ g) else none) ::
           List.replicate l2.length (none : Option (List ℚ))) := by
  rw [capture_run_append m sf th speech (pre ++ g :: l2) s]
  rw [capture_run_speech m sf th speech s hne hsp]
  dsimp only
  rw [capture_run_append m sf th pre (g :: l2)]
  rw [capture_run_silence_count m sf th pre 0 (s.audio_buffer ++ speech.join) hpre (by omega)]
  dsimp only
  rw [capture_run]
  rw [capture_step_finalize m sf th (0 + pre.length) ((s.audio_buffer ++ speech.join) ++ pre.join)
    g hg (by omega)]
  dsimp only
  rw [capture_run_idle m sf th l2 0 [] hl2]
  simp [List.append_assoc]
  rw [List.replicate_add, List.append_assoc]

/-- C2.  From the initial segmenter state, a run of speech frames
followed by at least `silence_frames` silence frames produces exactly
one emitted utterance — at the frame where the silence counter reaches
`silence_frames` — containing exactly the speech frames plus the counted
silence tail, provided its length reaches the capture loop's minimum;
every frame is appended to the buffer unconditionally (the frames after
finalization accumulate in the cleared buffer) and the buffer is cleared
on finalization. -/
theorem segmentation_single_utterance
    (min_samples silence_frames : Nat) (energy_threshold : ℚ)
    (speech silence : List (List ℚ))
    (hsp : ∀ f ∈ speech, is_speech_frame energy_threshold f = true)
    (hsi : ∀ f ∈ silence, is_speech_frame energy_threshold f = false)
    (hne : speech ≠ [])
    (hsf1 : 1 ≤ silence_frames)
    (hlen : silence_frames ≤ silence.length)
    (hmin : min_samples ≤ (speech.join ++ (silence.take silence_frames).join).length)
    (hpos : 0 < (speech.join ++ (silence.take silence_frames).join).length) :
    capture_run min_samples silence_frames energy_threshold init_vad (speech ++ silence) =
      (⟨false, 0, (silence.drop silence_frames).join⟩,
       List.replicate (speech.length + silence_frames - 1) (none : Option (List ℚ)) ++
         some (speech.join ++ (silence.take silence_frames).join) ::
           List.replicate (silence.length - silence_frames) (none : Option (List ℚ))) := by
  set l1 := silence.take silence_frames with hl1def
  set l2 := silence.drop silence_frames with hl2def
  have hl1len : l1.length = silence_frames := by
    rw [hl1def]; simp [List.length_take]; omega
  have hl1ne : l1 ≠ [] := by
    intro h0; rw [h0] at hl1len; simp at hl1len; omega
  have hlast := List.dropLast_append_getLast hl1ne
  have hsil : l1.dropLast ++ l1.getLast hl1ne :: l2 = silence := by
    calc l1.dropLast ++ l1.getLast hl1ne :: l2
        = (l1.dropLast ++ [l1.getLast hl1ne]) ++ l2 := by simp
      _ = l1 ++ l2 := by rw [hlast]
      _ = silence := by rw [hl1def, hl2def]; exact List.take_append_drop _ _
  have hmem1 : ∀ f ∈ l1, is_speech_frame energy_threshold f = false := by
    intro f hf
    exact hsi f (List.take_subset _ _ (hl1def ▸ hf))
  have hpre : ∀ f ∈ l1.dropLast, is_speech_frame energy_threshold f = false := by
    intro f hf
    exact hmem1 f ((List.dropLast_sublist l1).subset hf)
  have hg : is_speech_frame energy_threshold (l1.getLast hl1ne) = false :=
    hmem1 _ (List.getLast_mem hl1ne)
  have hmem2 : ∀ f ∈ l2, is_speech_frame energy_threshold f = false := by
    intro f hf
    exact hsi f (List.drop_subset _ _ (hl2def ▸ hf))
  have hplen : l1.dropLast.length + 1 = silence_frames := by
    simp [List.length_dropLast, hl1len]; omega
  have hchunk : init_vad.audio_buffer ++ speech.join ++ l1.dropLast.join ++
      l1.getLast hl1ne = speech.join ++ l1.join := by
    conv_rhs => rw [← hlast]
    simp [init_vad, List.join_append, List.append_assoc]
  rw [show speech ++ silence = speech ++ (l1.dropLast ++ l1.getLast hl1ne :: l2) from by
    rw [hsil]]
  rw [capture_run_episode min_samples silence_frames energy_threshold init_vad speech
    l1.dropLast (l1.getLast hl1ne) l2 hsp hpre hg hmem2 hne hplen]
  rw [hchunk]
  rw [if_pos ⟨hpos, hmin⟩]
  have hdl : l1.dropLast.length = silence_frames - 1 := by omega
  have hdroplen : l2.length = silence.length - silence_frames := by
    rw [hl2def]; exact List.length_drop _ _
  rw [hdl, hdroplen, ← List.replicate_add]
  have harith : speech.length + (silence_frames - 1) = speech.length + silence_frames - 1 := by
    omega
  rw [harith]

/-- Witness for `segmentation_single_utterance`: one speech frame `[1]`
and three silence frames `[0]` with `silence_frames = 2`,
`min_samples = 3`: exactly one utterance `[1, 0, 0]` is emitted at the
second silence frame. -/
theorem segmentation_single_utterance_witness :
    capture_run 3 2 0 init_vad ([[1]] ++ [[0], [0], [0]]) =
      (⟨false, 0, (([[0], [0], [0]] : List (List ℚ)).drop 2).join⟩,
       List.replicate (([[1]] : List (List ℚ)).length + 2 - 1) (none : Option (List ℚ)) ++
         some (([[1]] : List (List ℚ)).join ++ (([[0], [0], [0]] : List (List ℚ)).take 2).join) ::
           List.replicate (([[0], [0], [0]] : List (List ℚ)).length - 2)
             (none : Option (List ℚ))) := by
  exact segmentation_single_utterance 3 2 0 [[1]] [[0], [0], [0]]
    (by
      intro f hf
      simp only [List.mem_singleton] at hf
      subst hf
      norm_num [is_speech_frame, frame_mean_sq])
    (by
      intro f hf
      simp only [List.mem_cons, List.not_mem_nil, or_false] at hf
      rcases hf with rfl | rfl | rfl <;> norm_num [is_speech_frame, frame_mean_sq])
    (by simp) (by omega) (by simp) (by simp) (by simp)

/-- C3.  A speech run whose finalized chunk (speech plus the counted
silence tail) is shorter than the capture loop's minimum, followed by at
least `silence_frames` silence frames, emits nothing: `on_audio_chunk`
is never invoked anywhere in the run — the VAD still finalizes, but the
capture loop discards the short chunk silently. -/
theorem short_utterance_discarded
    (min_samples silence_frames : Nat) (energy_threshold : ℚ)
    (speech silence : List (List ℚ))
    (hsp : ∀ f ∈ speech, is_speech_frame energy_threshold f = true)
    (hsi : ∀ f ∈ silence, is_speech_frame energy_threshold f = false)
    (hne : speech ≠ [])
    (hsf1 : 1 ≤ silence_frames)
    (hlen : silence_frames ≤ silence.length)
    (hshort : (speech.join ++ (silence.take silence_frames).join).length < min_samples) :
    (capture_run min_samples silence_frames energy_threshold init_vad (speech ++ silence)).2 =
      List.replicate (speech.length + silence.length) (none : Option (List ℚ)) := by
  set l1 := silence.take silence_frames with hl1def
  set l2 := silence.drop silence_frames with hl2def
  have hl1len : l1.length = silence_frames := by
    rw [hl1def]; simp [List.length_take]; omega
  have hl1ne : l1 ≠ [] := by
    intro h0; rw [h0] at hl1len; simp at hl1len; omega
  have hlast := List.dropLast_append_getLast hl1ne
  have hsil : l1.dropLast ++ l1.getLast hl1ne :: l2 = silence := by
    calc l1.dropLast ++ l1.getLast hl1ne :: l2
        = (l1.dropLast ++ [l1.getLast hl1ne]) ++ l2 := by simp
      _ = l1 ++ l2 := by rw [hlast]
      _ = silence := by rw [hl1def, hl2def]; exact List.take_append_drop _ _
  have hmem1 : ∀ f ∈ l1, is_speech_frame energy_threshold f = false := by
    intro f hf
    exact hsi f (List.take_subset _ _ (hl1def ▸ hf))
  have hpre : ∀ f ∈ l1.dropLast, is_speech_frame energy_threshold f = false := by
    intro f hf
    exact hmem1 f ((List.dropLast_sublist l1).subset hf)
  have hg : is_speech_frame energy_threshold (l1.getLast hl1ne) = false :=
    hmem1 _ (List.getLast_mem hl1ne)
  have hmem2 : ∀ f ∈ l2, is_speech_frame energy_threshold f = false := by
    intro f hf
    exact hsi f (List.drop_subset _ _ (hl2def ▸ hf))
  have hplen : l1.dropLast.length + 1 = silence_frames := by
    simp [List.length_dropLast, hl1len]; omega
  have hchunk : init_vad.audio_buffer ++ speech.join ++ l1.dropLast.join ++
      l1.getLast hl1ne = speech.join ++ l1.join := by
    conv_rhs => rw [← hlast]
    simp [init_vad, List.join_append, List.append_assoc]
  rw [show speech ++ silence = speech ++ (l1.dropLast ++ l1.getLast hl1ne :: l2) from by
    rw [hsil]]
  rw [capture_run_episode min_samples silence_frames energy_threshold init_vad speech
    l1.dropLast (l1.getLast hl1ne) l2 hsp hpre hg hmem2 hne hplen]
  rw [hchunk]
  rw [if_neg (by
    rintro ⟨-, h2⟩
    omega)]
  dsimp only
  have hdl : l1.dropLast.length = silence_frames - 1 := by omega
  have hdroplen : l2.length = silence.length - silence_frames := by
    rw [hl2def]; exact List.length_drop _ _
  rw [hdl, hdroplen]
  rw [show (none : Option (List ℚ)) ::
      List.replicate (silence.length - silence_frames) (none : Option (List ℚ)) =
      List.replicate (silence.length - silence_frames + 1) (none : Option (List ℚ)) from
    (List.replicate_succ _ _).symm]
  rw [← List.replicate_add, ← List.replicate_add]
  have harith : speech.length + (silence_frames - 1) + (silence.length - silence_frames + 1) =
      speech.length + silence.length := by omega
  rw [harith]

/-- Witness for `short_utterance_discarded`: a one-frame speech run with
chunk `[1, 0, 0]` (3 samples) against `min_samples = 100` emits
nothing. -/
theorem short_utterance_discarded_witness :
    (capture_run 100 2 0 init_vad ([[1]] ++ [[0], [0]])).2 =
      List.replicate (([[1]] : List (List ℚ)).length + ([[0], [0]] : List (List ℚ)).length)
        (none : Option (List ℚ)) := by
  exact short_utterance_discarded 100 2 0 [[1]] [[0], [0]]
    (by
      intro f hf
      simp only [List.mem_singleton] at hf
      subst hf
      norm_num [is_speech_frame, frame_mean_sq])
    (by
      intro f hf
      simp only [List.mem_cons, List.not_mem_nil, or_false] at hf
      rcases hf with rfl | rfl <;> norm_num [is_speech_frame, frame_mean_sq])
    (by simp) (by omega) (by simp) (by simp)
